import Mathlib

/-
Verification of the jito-go searcher client (package searcher_client and
package pkg) against its natural-language specification.

The Go code is shallowly embedded: pure functions become Lean functions,
the external collaborators (gRPC transport, the bundle-result stream, the
ledger RPC, the random source) become explicit parameters, and Go's
(value, error) returns become `Except String`.  Bytes are modelled as
`List Nat`; Go's `uint64(len(data))` conversion is exact for every slice
a Go program can hold (len < 2^63), so `Meta.size` is the plain length.
-/

namespace JitoGo

/-- `rpc.ConfirmationStatus` from the gagliardetto solana-go rpc package:
a string type whose known values are "processed", "confirmed" and
"finalized"; `other` covers any remaining string value. -/
inductive ConfirmationStatus where
  | processed
  | confirmed
  | finalized
  | other (s : String)
  deriving DecidableEq, Repr

/-- `proto.Meta`: metadata attached to a packet. -/
structure Meta where
  size : Nat
  addr : String
  port : Nat
  flags : Option Unit
  senderStake : Nat
  deriving DecidableEq, Repr

/-- `proto.Packet`: serialized transaction bytes plus metadata.  In Go the
`Meta` field is a pointer, hence the `Option`. -/
structure Packet where
  data : List Nat
  meta : Option Meta
  deriving DecidableEq, Repr

/-- A `types.Transaction` as seen by this client: the only operation the
client performs on it is `Serialize()`, the opaque serialize boundary, so a
transaction is modelled by the outcome of that call. -/
structure Transaction where
  serialize : Except String (List Nat)

/-- `pkg.ConvertTransactionToProtobufPacket` (src/pkg/convert.go): serialize
the transaction; on success build a packet whose `Data` is the bytes and
whose `Meta.Size` is `uint64(len(data))`, with the remaining meta fields
zeroed. -/
def ConvertTransactionToProtobufPacket (transaction : Transaction) :
    Except String Packet :=
  match transaction.serialize with
  | .error e => .error e
  | .ok data => .ok { data := data
                      meta := some { size := data.length
                                     addr := ""
                                     port := 0
                                     flags := none
                                     senderStake := 0 } }

/-- `pkg.ConvertBatchTransactionToProtobufPacket` (src/pkg/convert.go):
convert each transaction in order, stopping at the first failure and
returning its error unchanged. -/
def ConvertBatchTransactionToProtobufPacket :
    List Transaction → Except String (List Packet)
  | [] => .ok []
  | tx :: rest =>
    match ConvertTransactionToProtobufPacket tx with
    | .error e => .error e
    | .ok packet =>
      match ConvertBatchTransactionToProtobufPacket rest with
      | .error e => .error e
      | .ok packets => .ok (packet :: packets)

/-- The indexed loop body of `assemblePackets` (src/unnamed/part_000):
`i` is the index of the first transaction of the remaining list within the
original slice; a conversion failure at overall index `k` is wrapped as
`fmt.Errorf("%d: error converting tx to proto packet [%w]", k, err)`. -/
def assemblePacketsFrom : Nat → List Transaction → Except String (List Packet)
  | _, [] => .ok []
  | i, tx :: rest =>
    match ConvertTransactionToProtobufPacket tx with
    | .error e =>
      .error (toString i ++ ": error converting tx to proto packet [" ++ e ++ "]")
    | .ok packet =>
      match assemblePacketsFrom (i + 1) rest with
      | .error e => .error e
      | .ok packets => .ok (packet :: packets)

/-- `assemblePackets` (src/unnamed/part_000): convert a slice of
transactions to a slice of protobuf packets, indexing errors by the
position of the failing transaction. -/
def assemblePackets (transactions : List Transaction) :
    Except String (List Packet) :=
  assemblePacketsFrom 0 transactions

/-- The three ways a Go call can end: a returned value, a returned error,
or a runtime panic. -/
inductive GoResult (α : Type) where
  | ok (a : α)
  | err (e : String)
  | panicked (msg : String)
  deriving DecidableEq, Repr

/-- Whether a `GoResult` is a returned error. -/
def GoResult.isErr {α : Type} : GoResult α → Bool
  | .err _ => true
  | _ => false

/-- `GetRandomTipAccount` (src/unnamed/part_000): fetch the tip-account
list and return `resp.Accounts[rand.Intn(len(resp.Accounts))]`.
`tipAccounts` is the outcome of the `GetTipAccounts` call; `draw` stands
for the random source: Go's `rand.Intn(n)` returns a value in `[0, n)`
when `n > 0` — every such value is realised by some `draw` via `draw % n`
— and panics with "invalid argument to Intn" when `n <= 0`, which on an
empty account list is exactly `len = 0`. -/
def GetRandomTipAccount (tipAccounts : Except String (List String))
    (draw : Nat) : GoResult String :=
  match tipAccounts with
  | .error e => .err e
  | .ok accounts =>
    if h : 0 < accounts.length then
      .ok (accounts.get ⟨draw % accounts.length, Nat.mod_lt draw h⟩)
    else
      .panicked "invalid argument to Intn"

/-- `ExecutionAccounts` (src/unnamed/part_000). -/
structure ExecutionAccounts where
  encoding : String
  addresses : List String
  deriving DecidableEq, Repr

/-- `SimulateBundleConfig` (src/unnamed/part_000). -/
structure SimulateBundleConfig where
  preExecutionAccountsConfigs : List ExecutionAccounts
  postExecutionAccountsConfigs : List ExecutionAccounts
  deriving DecidableEq, Repr

/-- `SimulateBundleParams` (src/unnamed/part_000). -/
structure SimulateBundleParams where
  encodedTransactions : List String
  deriving DecidableEq, Repr

/-- `SimulateBundle` (src/unnamed/part_000): reject with a length-mismatch
error when `len(bundleParams.EncodedTransactions)` differs from
`len(simulationConfigs.PreExecutionAccountsConfigs)`; otherwise issue the
`simulateBundle` RPC.  The response payload is opaque to the control flow
(filled by `RPCCallForInto`, the excluded deserialize boundary), so the
remote call is a parameter `rpcResult` over an abstract response type, and
the second component records whether the RPC was issued. -/
def SimulateBundle {R : Type} (rpcResult : Except String R)
    (bundleParams : SimulateBundleParams)
    (simulationConfigs : SimulateBundleConfig) :
    Except String R × Bool :=
  if bundleParams.encodedTransactions.length ≠
      simulationConfigs.preExecutionAccountsConfigs.length then
    (.error "pre/post execution account config length must match bundle length",
      false)
  else
    (rpcResult, true)

/-- `BundleRejectionError` (src/unnamed/part_000): an error value carrying
only a message string. -/
structure BundleRejectionError where
  message : String
  deriving DecidableEq, Repr

/-- `NewStateAuctionBidRejectedError` (src/unnamed/part_000). -/
def NewStateAuctionBidRejectedError (auction : String) (tip : Nat) :
    BundleRejectionError :=
  { message := "bundle lost state auction, auction: " ++ auction ++
      ", tip " ++ toString tip ++ " lamports" }

/-- `NewWinningBatchBidRejectedError` (src/unnamed/part_000). -/
def NewWinningBatchBidRejectedError (auction : String) (tip : Nat) :
    BundleRejectionError :=
  { message := "bundle won state auction but failed global auction, auction " ++
      auction ++ ", tip " ++ toString tip ++ " lamports" }

/-- `NewSimulationFailureError` (src/unnamed/part_000). -/
def NewSimulationFailureError (tx : String) (message : String) :
    BundleRejectionError :=
  { message := "bundle simulation failure on tx " ++ tx ++ ", message: " ++
      message }

/-- `NewInternalError` (src/unnamed/part_000). -/
def NewInternalError (message : String) : BundleRejectionError :=
  { message := "internal error " ++ message }

/-- `NewDroppedBundle` (src/unnamed/part_000). -/
def NewDroppedBundle (message : String) : BundleRejectionError :=
  { message := "bundle dropped " ++ message }

/-- The `proto.Rejected.Reason` oneof: the five rejection reasons handled
by `handleBundleResult`, plus `unknown` for the switch's default case. -/
inductive RejectedReason where
  | simulationFailure (txSignature : String) (msg : String)
  | stateAuctionBidRejected (auctionId : String) (simulatedBidLamports : Nat)
  | winningBatchBidRejected (auctionId : String) (simulatedBidLamports : Nat)
  | internalError (msg : String)
  | droppedBundle (msg : String)
  | unknown
  deriving DecidableEq, Repr

/-- The `proto.BundleResult.Result` oneof as `handleBundleResult` sees it:
`accepted`, `rejected` with a reason, or any other variant (which the Go
switch falls through). -/
inductive BundleResultCase where
  | accepted
  | rejected (reason : RejectedReason)
  | other
  deriving DecidableEq, Repr

/-- `handleBundleResult` (src/unnamed/part_000): `Accepted` and every
unmatched variant yield nil; each handled rejection reason yields its
typed `BundleRejectionError`. -/
def handleBundleResult : BundleResultCase → Option BundleRejectionError
  | .accepted => none
  | .rejected (.simulationFailure tx msg) =>
    some (NewSimulationFailureError tx msg)
  | .rejected (.stateAuctionBidRejected auction tip) =>
    some (NewStateAuctionBidRejectedError auction tip)
  | .rejected (.winningBatchBidRejected auction tip) =>
    some (NewWinningBatchBidRejectedError auction tip)
  | .rejected (.internalError msg) => some (NewInternalError msg)
  | .rejected (.droppedBundle msg) => some (NewDroppedBundle msg)
  | .rejected .unknown => none
  | .other => none

/-- The external world of one `BroadcastBundleWithConfirmation` call.
`authDone i` is whether `c.Auth.GrpcCtx` is observed as done at the top of
retry iteration `i`, and `authErrMsg` its `Err()` message.  `callerDone`
is whether the caller's `ctx` has been cancelled (with message
`callerErrMsg`); the Go code never consults that context in the retry
loop — it reaches the call only through `GetSignatureStatuses(ctx, ...)`,
whose rpc library fails with the context's error once it is cancelled.
`recv i` is the outcome of the `i`-th `SubscribeBundleStream.Recv()`, and
`pollRaw k` the ledger's answer to the `k`-th `GetSignatureStatuses` poll:
one entry per bundle signature, `none` meaning "not yet observed". -/
structure BroadcastEnv where
  authDone : Nat → Bool
  authErrMsg : String
  callerDone : Bool
  callerErrMsg : String
  recv : Nat → Except String BundleResultCase
  pollRaw : Nat → Except String (List (Option ConfirmationStatus))

/-- What `GetSignatureStatuses(ctx, ...)` returns at poll `k`: the caller
context's error once cancelled, the ledger's answer otherwise. -/
def BroadcastEnv.poll (env : BroadcastEnv) (k : Nat) :
    Except String (List (Option ConfirmationStatus)) :=
  if env.callerDone then .error env.callerErrMsg else env.pollRaw k

/-- The instrumented result of a `BroadcastBundleWithConfirmation` call:
the returned value (`.ok ()` for the successful response, `.error` for
each error return), how many times `Recv` was attempted, and how many
`GetSignatureStatuses` polls were issued. -/
structure BroadcastResult where
  outcome : Except String Unit
  recvCalls : Nat
  pollCalls : Nat
  deriving Repr

/-- The inner signature-status polling loop of
`BroadcastBundleWithConfirmation` (src/unnamed/part_000): poll, break once
every status is non-nil, give up with a timeout error once more than 15
seconds have elapsed, otherwise sleep 1s and poll again.  Time is
discretised at the code's own granularity: polls are instantaneous and
each sleep lasts exactly 1s, so `time.Since(start)` at the check equals
`sleeps` seconds and the deadline test is `sleeps > 15`.  Under that test
`sleeps` never exceeds 16, so the loop performs at most 17 polls; `fuel`
only makes the recursion structural and is started at 17, which the
deadline guard keeps from ever running out.  The second component counts
the polls issued. -/
def pollStatusesLoop (poll : Nat → Except String (List (Option ConfirmationStatus))) :
    Nat → Nat → Nat →
    Except String (List (Option ConfirmationStatus)) × Nat
  | 0, k, _ => (.error "operation timed out after 15 seconds", k)
  | fuel + 1, k, sleeps =>
    match poll k with
    | .error e => (.error e, k + 1)
    | .ok statuses =>
      if statuses.all Option.isSome then (.ok statuses, k + 1)
      else if sleeps > 15 then
        (.error "operation timed out after 15 seconds", k + 1)
      else
        pollStatusesLoop poll fuel (k + 1) (sleeps + 1)

/-- Whether one signature status passes the final check of
`BroadcastBundleWithConfirmation`:
`status.ConfirmationStatus == Processed || status.ConfirmationStatus == Confirmed`.
The `none` case cannot be reached from the code: the polling loop only
breaks once every status is non-nil. -/
def statusConfirmed : Option ConfirmationStatus → Bool
  | some .processed => true
  | some .confirmed => true
  | _ => false

/-- The final per-signature check of `BroadcastBundleWithConfirmation`
(src/unnamed/part_000): the first status that is neither `Processed` nor
`Confirmed` aborts with an error; otherwise the call succeeds. -/
def finalStatusCheck : List (Option ConfirmationStatus) → Except String Unit
  | [] => .ok ()
  | status :: rest =>
    if statusConfirmed status then finalStatusCheck rest
    else .error "searcher service did not provide bundle status in time"

/-- The retry loop of `BroadcastBundleWithConfirmation`
(src/unnamed/part_000), `for i := 0; i < retries; i++` with `retries = 5`:
at the top of each iteration the `select` returns `Auth.GrpcCtx.Err()` if
that context is done; otherwise the code sleeps 5s and calls `Recv`.  A
receive error continues to the next iteration; a received result is
classified by `handleBundleResult` — a rejection error returns at once,
otherwise the signature-status polling runs and the iteration returns its
verdict.  `remaining` counts the iterations left (`5 - i`); falling out of
the loop yields the max-retries error. -/
def broadcastLoop (env : BroadcastEnv) :
    Nat → Nat → Nat → Nat → BroadcastResult
  | 0, _, recvCalls, pollCalls =>
    { outcome := .error "error waiting for max retries exceeded"
      recvCalls := recvCalls, pollCalls := pollCalls }
  | remaining + 1, i, recvCalls, pollCalls =>
    if env.authDone i then
      { outcome := .error env.authErrMsg
        recvCalls := recvCalls, pollCalls := pollCalls }
    else
      match env.recv i with
      | .error _ => broadcastLoop env remaining (i + 1) (recvCalls + 1) pollCalls
      | .ok bundleResult =>
        match handleBundleResult bundleResult with
        | some rejection =>
          { outcome := .error rejection.message
            recvCalls := recvCalls + 1, pollCalls := pollCalls }
        | none =>
          match pollStatusesLoop env.poll 17 0 0 with
          | (.error e, polls) =>
            { outcome := .error e
              recvCalls := recvCalls + 1, pollCalls := pollCalls + polls }
          | (.ok statuses, polls) =>
            { outcome := finalStatusCheck statuses
              recvCalls := recvCalls + 1, pollCalls := pollCalls + polls }

/-- `BroadcastBundleWithConfirmation` (src/unnamed/part_000): assemble and
send the bundle (`BroadcastBundle`), then run the retry loop.  `sendErr`
is the outcome of the `SendBundle` RPC itself (an external call): `some e`
makes `BroadcastBundle` return error `e` before any receive or poll. -/
def BroadcastBundleWithConfirmation (transactions : List Transaction)
    (sendErr : Option String) (env : BroadcastEnv) : BroadcastResult :=
  match assemblePackets transactions with
  | .error e => { outcome := .error e, recvCalls := 0, pollCalls := 0 }
  | .ok _ =>
    match sendErr with
    | some e => { outcome := .error e, recvCalls := 0, pollCalls := 0 }
    | none => broadcastLoop env 5 0 0 0

/-! ## Packet assembly -/

lemma assemblePacketsFrom_all_ok :
    ∀ (txs : List Transaction) (i : Nat),
    (∀ tx ∈ txs, ∃ d, tx.serialize = Except.ok d) →
    ∃ packets, assemblePacketsFrom i txs = .ok packets ∧
      packets.length = txs.length ∧
      ∀ k : Nat, ∀ hk : k < txs.length, ∀ hk' : k < packets.length,
        ConvertTransactionToProtobufPacket (txs.get ⟨k, hk⟩) =
          .ok (packets.get ⟨k, hk'⟩) := by
  intro txs
  induction txs with
  | nil =>
    intro i _
    exact ⟨[], rfl, rfl, fun k hk _ => absurd hk (Nat.not_lt_zero k)⟩
  | cons tx rest ih =>
    intro i h
    obtain ⟨d, hd⟩ := h tx (List.mem_cons_self tx rest)
    obtain ⟨ps, hps, hlen, hidx⟩ :=
      ih (i + 1) (fun t ht => h t (List.mem_cons_of_mem tx ht))
    refine ⟨{ data := d
              meta := some { size := d.length, addr := "", port := 0,
                             flags := none, senderStake := 0 } } :: ps,
            ?_, ?_, ?_⟩
    · simp [assemblePacketsFrom, ConvertTransactionToProtobufPacket, hd, hps]
    · simp [hlen]
    · intro k hk hk'
      cases k with
      | zero => simp [ConvertTransactionToProtobufPacket, hd]
      | succ k => exact hidx k (Nat.lt_of_succ_lt_succ hk) (Nat.lt_of_succ_lt_succ hk')

lemma assemblePacketsFrom_first_err :
    ∀ (txs : List Transaction) (i k : Nat) (hk : k < txs.length) (cause : String),
    (txs.get ⟨k, hk⟩).serialize = Except.error cause →
    (∀ j : Nat, ∀ hj : j < k, ∃ d, (txs.get ⟨j, hj.trans hk⟩).serialize = Except.ok d) →
    assemblePacketsFrom i txs =
      .error (toString (i + k) ++ ": error converting tx to proto packet [" ++
        cause ++ "]") := by
  intro txs
  induction txs with
  | nil => intro i k hk; exact absurd hk (Nat.not_lt_zero k)
  | cons tx rest ih =>
    intro i k hk cause hser hprev
    cases k with
    | zero =>
      simp only [List.get] at hser
      simp [assemblePacketsFrom, ConvertTransactionToProtobufPacket, hser]
    | succ k =>
      obtain ⟨d, hd⟩ := hprev 0 (Nat.succ_pos k)
      simp only [List.get] at hd hser
      have hrest := ih (i + 1) k (Nat.lt_of_succ_lt_succ hk) cause hser
        (fun j hj => hprev (j + 1) (Nat.succ_lt_succ hj))
      have harith : i + 1 + k = i + (k + 1) := by omega
      rw [harith] at hrest
      simp [assemblePacketsFrom, ConvertTransactionToProtobufPacket, hd, hrest]

lemma assemblePacketsFrom_eq_batch :
    ∀ (txs : List Transaction) (i : Nat),
    (∀ tx ∈ txs, ∃ d, tx.serialize = Except.ok d) →
    assemblePacketsFrom i txs = ConvertBatchTransactionToProtobufPacket txs := by
  intro txs
  induction txs with
  | nil => intro i _; rfl
  | cons tx rest ih =>
    intro i h
    obtain ⟨d, hd⟩ := h tx (List.mem_cons_self tx rest)
    have hrest := ih (i + 1) (fun t ht => h t (List.mem_cons_of_mem tx ht))
    simp [assemblePacketsFrom, ConvertBatchTransactionToProtobufPacket,
      ConvertTransactionToProtobufPacket, hd, hrest]

/-- Claim C3: with every transaction serializing, `assemblePackets` on N
transactions yields exactly N packets, packet `k` being the conversion of
transaction `k`; when transaction `k` is the first that fails to
serialize, it yields no packets and the error message is the index `k`
followed by the underlying cause. -/
theorem assemblePackets_spec (txs : List Transaction) :
    ((∀ tx ∈ txs, ∃ d, tx.serialize = Except.ok d) →
      ∃ packets, assemblePackets txs = .ok packets ∧
        packets.length = txs.length ∧
        ∀ k : Nat, ∀ hk : k < txs.length, ∀ hk' : k < packets.length,
          ConvertTransactionToProtobufPacket (txs.get ⟨k, hk⟩) =
            .ok (packets.get ⟨k, hk'⟩)) ∧
    (∀ k : Nat, ∀ hk : k < txs.length, ∀ cause : String,
      (txs.get ⟨k, hk⟩).serialize = Except.error cause →
      (∀ j : Nat, ∀ hj : j < k, ∃ d, (txs.get ⟨j, hj.trans hk⟩).serialize = Except.ok d) →
      assemblePackets txs =
        .error (toString k ++ ": error converting tx to proto packet [" ++
          cause ++ "]")) := by
  constructor
  · exact assemblePacketsFrom_all_ok txs 0
  · intro k hk cause hser hprev
    have h := assemblePacketsFrom_first_err txs 0 k hk cause hser hprev
    simpa [assemblePackets] using h

/-- Witness for C3 at a concrete two-transaction list. -/
theorem assemblePackets_spec_witness :
    ∃ packets,
      assemblePackets [⟨Except.ok [1, 2]⟩, ⟨Except.ok [3]⟩] = .ok packets ∧
      packets.length = ([⟨Except.ok [1, 2]⟩, ⟨Except.ok [3]⟩] :
        List Transaction).length ∧
      ∀ k : Nat,
        ∀ hk : k < ([⟨Except.ok [1, 2]⟩, ⟨Except.ok [3]⟩] :
          List Transaction).length,
        ∀ hk' : k < packets.length,
        ConvertTransactionToProtobufPacket
            (([⟨Except.ok [1, 2]⟩, ⟨Except.ok [3]⟩] :
              List Transaction).get ⟨k, hk⟩) =
          .ok (packets.get ⟨k, hk'⟩) :=
  (assemblePackets_spec [⟨Except.ok [1, 2]⟩, ⟨Except.ok [3]⟩]).1 (by
    intro tx htx
    simp only [List.mem_cons, List.not_mem_nil, or_false] at htx
    rcases htx with h | h <;> subst h
    · exact ⟨[1, 2], rfl⟩
    · exact ⟨[3], rfl⟩)

/-- Claim C9: every packet produced by
`ConvertTransactionToProtobufPacket` carries the transaction's
serialization as its data, and its meta size equals the byte length of
that data. -/
theorem convertTransactionToProtobufPacket_meta_size (tx : Transaction)
    (p : Packet) (h : ConvertTransactionToProtobufPacket tx = Except.ok p) :
    tx.serialize = Except.ok p.data ∧
      ∃ m, p.meta = some m ∧ m.size = p.data.length := by
  unfold ConvertTransactionToProtobufPacket at h
  cases hs : tx.serialize with
  | error e => rw [hs] at h; cases h
  | ok d =>
    rw [hs] at h
    cases h
    exact ⟨rfl, _, rfl, rfl⟩

/-- Witness for C9 at a concrete transaction. -/
theorem convertTransactionToProtobufPacket_meta_size_witness :
    (⟨Except.ok [5, 6]⟩ : Transaction).serialize =
      Except.ok (Packet.data ⟨[5, 6],
        some ⟨2, "", 0, none, 0⟩⟩) ∧
    ∃ m, (Packet.meta ⟨[5, 6], some ⟨2, "", 0, none, 0⟩⟩) = some m ∧
      m.size = (Packet.data ⟨[5, 6], some ⟨2, "", 0, none, 0⟩⟩).length :=
  convertTransactionToProtobufPacket_meta_size ⟨Except.ok [5, 6]⟩
    ⟨[5, 6], some ⟨2, "", 0, none, 0⟩⟩ rfl

/-- Claim C10: when every transaction serializes, `assemblePackets` and
`ConvertBatchTransactionToProtobufPacket` return identical results. -/
theorem assemblePackets_eq_convertBatch (txs : List Transaction)
    (h : ∀ tx ∈ txs, ∃ d, tx.serialize = Except.ok d) :
    assemblePackets txs = ConvertBatchTransactionToProtobufPacket txs :=
  assemblePacketsFrom_eq_batch txs 0 h

/-- Witness for C10 at a concrete two-transaction list. -/
theorem assemblePackets_eq_convertBatch_witness :
    assemblePackets [⟨Except.ok [7]⟩, ⟨Except.ok [8, 9]⟩] =
      ConvertBatchTransactionToProtobufPacket
        [⟨Except.ok [7]⟩, ⟨Except.ok [8, 9]⟩] :=
  assemblePackets_eq_convertBatch [⟨Except.ok [7]⟩, ⟨Except.ok [8, 9]⟩] (by
    intro tx htx
    simp only [List.mem_cons, List.not_mem_nil, or_false] at htx
    rcases htx with h | h <;> subst h
    · exact ⟨[7], rfl⟩
    · exact ⟨[8, 9], rfl⟩)

/-! ## Tip account selection -/

/-- Claim C8: with a fixed non-empty candidate list, every draw of
`GetRandomTipAccount` succeeds and returns a member of that list. -/
theorem getRandomTipAccount_member (accounts : List String) (draw : Nat)
    (h : accounts ≠ []) :
    ∃ s, GetRandomTipAccount (Except.ok accounts) draw = .ok s ∧
      s ∈ accounts := by
  have hlen : 0 < accounts.length := List.length_pos.mpr h
  refine ⟨accounts.get ⟨draw % accounts.length, Nat.mod_lt draw hlen⟩, ?_, ?_⟩
  · simp [GetRandomTipAccount, hlen]
  · exact accounts.get_mem _ _

/-- Witness for C8 at a concrete list and draw. -/
theorem getRandomTipAccount_member_witness :
    ∃ s, GetRandomTipAccount (Except.ok ["acc1", "acc2"]) 3 = .ok s ∧
      s ∈ ["acc1", "acc2"] :=
  getRandomTipAccount_member ["acc1", "acc2"] 3 (by simp)

/-- Counterexample to C5: on a successful tip-accounts call returning the
empty list, `GetRandomTipAccount` does not return an error — it panics
(Go's `rand.Intn(0)`). -/
theorem getRandomTipAccount_empty_counterexample :
    GetRandomTipAccount (Except.ok []) 0 = .panicked "invalid argument to Intn" ∧
      (GetRandomTipAccount (Except.ok []) 0).isErr = false := by
  exact ⟨rfl, rfl⟩

/-- Amended C5: when the remote call succeeds with an empty candidate
list, `GetRandomTipAccount` panics with `rand.Intn`'s "invalid argument"
message for every draw, rather than returning a value or an error. -/
theorem getRandomTipAccount_empty_panics (draw : Nat) :
    GetRandomTipAccount (Except.ok []) draw =
      .panicked "invalid argument to Intn" := rfl

/-! ## Bundle simulation -/

/-- Counterexample to C4: one encoded transaction with one pre-execution
config but zero post-execution configs — a post-execution length mismatch
— is not rejected: the RPC is issued and its result returned. -/
theorem simulateBundle_post_mismatch_counterexample :
    SimulateBundle (Except.ok () : Except String Unit)
      { encodedTransactions := ["tx1"] }
      { preExecutionAccountsConfigs := [{ encoding := "base64", addresses := [] }]
        postExecutionAccountsConfigs := [] } = (Except.ok (), true) := rfl

/-- Amended C4: `SimulateBundle` returns the config-mismatch error with no
RPC issued exactly when the encoded-transaction count differs from the
length of the pre-execution account-config list; the post-execution list
is not checked. -/
theorem simulateBundle_pre_mismatch_iff {R : Type} (rpcResult : Except String R)
    (bundleParams : SimulateBundleParams)
    (simulationConfigs : SimulateBundleConfig) :
    SimulateBundle rpcResult bundleParams simulationConfigs =
      (.error "pre/post execution account config length must match bundle length",
        false) ↔
    bundleParams.encodedTransactions.length ≠
      simulationConfigs.preExecutionAccountsConfigs.length := by
  unfold SimulateBundle
  by_cases h : bundleParams.encodedTransactions.length =
      simulationConfigs.preExecutionAccountsConfigs.length
  · simp [h]
  · simp [h]

/-! ## The broadcast-with-confirmation retry loop -/

lemma broadcastLoop_skip (env : BroadcastEnv) :
    ∀ (n remaining i recvCalls pollCalls : Nat),
    n ≤ remaining →
    (∀ j : Nat, j < n → env.authDone (i + j) = false ∧
      ∃ e, env.recv (i + j) = Except.error e) →
    broadcastLoop env remaining i recvCalls pollCalls =
      broadcastLoop env (remaining - n) (i + n) (recvCalls + n) pollCalls := by
  intro n
  induction n with
  | zero => intro remaining i rc pc _ _; simp
  | succ n ih =>
    intro remaining i rc pc hn h
    cases remaining with
    | zero => exact absurd hn (by omega)
    | succ m =>
      obtain ⟨ha, he⟩ := h 0 (Nat.succ_pos n)
      rw [Nat.add_zero] at ha he
      obtain ⟨e, he⟩ := he
      have step : broadcastLoop env (m + 1) i rc pc =
          broadcastLoop env m (i + 1) (rc + 1) pc := by
        simp [broadcastLoop, ha, he]
      rw [step, ih m (i + 1) (rc + 1) pc (by omega)
          (fun j hj => by
            rw [show i + 1 + j = i + (j + 1) from by omega]
            exact h (j + 1) (by omega)),
        show m + 1 - (n + 1) = m - n from by omega,
        show i + (n + 1) = i + 1 + n from by omega,
        show rc + (n + 1) = rc + 1 + n from by omega]

lemma broadcastLoop_recvCalls_le (env : BroadcastEnv) :
    ∀ (remaining i recvCalls pollCalls : Nat),
    (broadcastLoop env remaining i recvCalls pollCalls).recvCalls ≤
      recvCalls + remaining := by
  intro remaining
  induction remaining with
  | zero => intro i rc pc; simp [broadcastLoop]
  | succ m ih =>
    intro i rc pc
    cases ha : env.authDone i with
    | true => simp [broadcastLoop, ha]
    | false =>
      cases hr : env.recv i with
      | error e =>
        have := ih (i + 1) (rc + 1) pc
        simp only [broadcastLoop, ha, Bool.false_eq_true, if_false, hr]
        omega
      | ok br =>
        cases hb : handleBundleResult br with
        | some rejection =>
          simp [broadcastLoop, ha, hr, hb]
        | none =>
          rcases hp : pollStatusesLoop env.poll 17 0 0 with ⟨verdict, polls⟩
          cases verdict with
          | error e => simp [broadcastLoop, ha, hr, hb, hp]
          | ok statuses => simp [broadcastLoop, ha, hr, hb, hp]

/-- Claim C6: when no bundle result is successfully received in any of the
5 receive attempts (and the auth context stays live), the call returns the
max-retries error having attempted exactly 5 receives; and no call ever
attempts more than 5 receives. -/
theorem broadcastBundleWithConfirmation_max_retries (txs : List Transaction)
    (sendErr : Option String) (env : BroadcastEnv) :
    ((∃ ps, assemblePackets txs = Except.ok ps) →
      (∀ j : Nat, j < 5 → env.authDone j = false ∧
        ∃ e, env.recv j = Except.error e) →
      (BroadcastBundleWithConfirmation txs none env).outcome =
          Except.error "error waiting for max retries exceeded" ∧
        (BroadcastBundleWithConfirmation txs none env).recvCalls = 5) ∧
    (BroadcastBundleWithConfirmation txs sendErr env).recvCalls ≤ 5 := by
  constructor
  · rintro ⟨ps, hps⟩ h
    have hskip := broadcastLoop_skip env 5 5 0 0 0 (le_refl 5)
      (fun j hj => by simpa using h j hj)
    have : BroadcastBundleWithConfirmation txs none env =
        broadcastLoop env 5 0 0 0 := by
      simp [BroadcastBundleWithConfirmation, hps]
    rw [this, hskip]
    exact ⟨rfl, rfl⟩
  · unfold BroadcastBundleWithConfirmation
    cases hps : assemblePackets txs with
    | error e => simp
    | ok ps =>
      cases sendErr with
      | some e => simp
      | none =>
        simpa using broadcastLoop_recvCalls_le env 5 0 0 0

/-- Witness for C6 at a concrete environment whose five receives all
fail. -/
theorem broadcastBundleWithConfirmation_max_retries_witness :
    (BroadcastBundleWithConfirmation []
        none
        { authDone := fun _ => false, authErrMsg := "auth ctx done"
          callerDone := false, callerErrMsg := "context canceled"
          recv := fun _ => Except.error "EOF"
          pollRaw := fun _ => Except.ok [] }).outcome =
      Except.error "error waiting for max retries exceeded" ∧
    (BroadcastBundleWithConfirmation []
        none
        { authDone := fun _ => false, authErrMsg := "auth ctx done"
          callerDone := false, callerErrMsg := "context canceled"
          recv := fun _ => Except.error "EOF"
          pollRaw := fun _ => Except.ok [] }).recvCalls = 5 :=
  (broadcastBundleWithConfirmation_max_retries [] none
      { authDone := fun _ => false, authErrMsg := "auth ctx done"
        callerDone := false, callerErrMsg := "context canceled"
        recv := fun _ => Except.error "EOF"
        pollRaw := fun _ => Except.ok [] }).1
    ⟨[], rfl⟩ (fun _ _ => ⟨rfl, "EOF", rfl⟩)

/-- Claim C1: when the first successfully received bundle result is a
simulation-failure rejection carrying signature `sig` and message `msg`,
the call returns an error whose message contains both `sig` and `msg`, it
issues no signature-status poll, and it performs no further receive
attempt after the rejection. -/
theorem broadcastBundleWithConfirmation_simulation_failure (txs : List Transaction)
    (env : BroadcastEnv) (sig msg : String) (i : Nat) (hi : i < 5)
    (hassemble : ∃ ps, assemblePackets txs = Except.ok ps)
    (hprev : ∀ j : Nat, j < i → env.authDone j = false ∧
      ∃ e, env.recv j = Except.error e)
    (hauth : env.authDone i = false)
    (hrecv : env.recv i = Except.ok (.rejected (.simulationFailure sig msg))) :
    (∃ a b, (BroadcastBundleWithConfirmation txs none env).outcome =
      Except.error (a ++ sig ++ b)) ∧
    (∃ c d, (BroadcastBundleWithConfirmation txs none env).outcome =
      Except.error (c ++ msg ++ d)) ∧
    (BroadcastBundleWithConfirmation txs none env).pollCalls = 0 ∧
    (BroadcastBundleWithConfirmation txs none env).recvCalls = i + 1 := by
  obtain ⟨ps, hps⟩ := hassemble
  obtain ⟨m, hm⟩ : ∃ m, 5 - i = m + 1 := ⟨5 - i - 1, by omega⟩
  have hres : BroadcastBundleWithConfirmation txs none env =
      { outcome := Except.error ("bundle simulation failure on tx " ++ sig ++
          ", message: " ++ msg)
        recvCalls := i + 1, pollCalls := 0 } := by
    have hskip := broadcastLoop_skip env i 5 0 0 0 (by omega)
      (fun j hj => by simpa using hprev j hj)
    have hstep : broadcastLoop env (m + 1) i i 0 =
        { outcome := Except.error ("bundle simulation failure on tx " ++ sig ++
            ", message: " ++ msg)
          recvCalls := i + 1, pollCalls := 0 } := by
      simp [broadcastLoop, hauth, hrecv, handleBundleResult,
        NewSimulationFailureError]
    calc BroadcastBundleWithConfirmation txs none env
        = broadcastLoop env 5 0 0 0 := by
          simp [BroadcastBundleWithConfirmation, hps]
      _ = broadcastLoop env (5 - i) (0 + i) (0 + i) 0 := hskip
      _ = broadcastLoop env (m + 1) i i 0 := by rw [hm, Nat.zero_add]
      _ = _ := hstep
  refine ⟨⟨"bundle simulation failure on tx ", ", message: " ++ msg, ?_⟩,
    ⟨"bundle simulation failure on tx " ++ sig ++ ", message: ", "", ?_⟩,
    ?_, ?_⟩
  · rw [hres]; simp [String.append_assoc]
  · rw [hres]; simp [String.append_empty]
  · rw [hres]
  · rw [hres]

/-- Witness for C1 at a concrete environment whose first receive reports
a simulation failure. -/
theorem broadcastBundleWithConfirmation_simulation_failure_witness :
    (∃ a b, (BroadcastBundleWithConfirmation []
        none
        { authDone := fun _ => false, authErrMsg := "auth ctx done"
          callerDone := false, callerErrMsg := "context canceled"
          recv := fun _ => Except.ok
            (.rejected (.simulationFailure "sigA" "insufficient funds"))
          pollRaw := fun _ => Except.ok [] }).outcome =
      Except.error (a ++ "sigA" ++ b)) ∧
    (∃ c d, (BroadcastBundleWithConfirmation []
        none
        { authDone := fun _ => false, authErrMsg := "auth ctx done"
          callerDone := false, callerErrMsg := "context canceled"
          recv := fun _ => Except.ok
            (.rejected (.simulationFailure "sigA" "insufficient funds"))
          pollRaw := fun _ => Except.ok [] }).outcome =
      Except.error (c ++ "insufficient funds" ++ d)) ∧
    (BroadcastBundleWithConfirmation []
        none
        { authDone := fun _ => false, authErrMsg := "auth ctx done"
          callerDone := false, callerErrMsg := "context canceled"
          recv := fun _ => Except.ok
            (.rejected (.simulationFailure "sigA" "insufficient funds"))
          pollRaw := fun _ => Except.ok [] }).pollCalls = 0 ∧
    (BroadcastBundleWithConfirmation []
        none
        { authDone := fun _ => false, authErrMsg := "auth ctx done"
          callerDone := false, callerErrMsg := "context canceled"
          recv := fun _ => Except.ok
            (.rejected (.simulationFailure "sigA" "insufficient funds"))
          pollRaw := fun _ => Except.ok [] }).recvCalls = 0 + 1 :=
  broadcastBundleWithConfirmation_simulation_failure []
    { authDone := fun _ => false, authErrMsg := "auth ctx done"
      callerDone := false, callerErrMsg := "context canceled"
      recv := fun _ => Except.ok
        (.rejected (.simulationFailure "sigA" "insufficient funds"))
      pollRaw := fun _ => Except.ok [] }
    "sigA" "insufficient funds" 0 (by omega) ⟨[], rfl⟩
    (fun j hj => absurd hj (by omega)) rfl rfl

/-! ## The confirmation-status check -/

lemma statusConfirmed_iff (s : Option ConfirmationStatus) :
    statusConfirmed s = true ↔
      s = some .processed ∨ s = some .confirmed := by
  cases s with
  | none => simp [statusConfirmed]
  | some c => cases c <;> simp [statusConfirmed]

lemma finalStatusCheck_ok_iff (statuses : List (Option ConfirmationStatus)) :
    finalStatusCheck statuses = .ok () ↔
      ∀ s ∈ statuses, s = some .processed ∨ s = some .confirmed := by
  induction statuses with
  | nil => simp [finalStatusCheck]
  | cons s rest ih =>
    cases hb : statusConfirmed s with
    | true =>
      have hs := (statusConfirmed_iff s).mp hb
      simp only [finalStatusCheck, hb, if_true, List.forall_mem_cons, ih]
      simp [hs]
    | false =>
      simp only [finalStatusCheck, hb, Bool.false_eq_true, if_false,
        List.forall_mem_cons]
      constructor
      · intro h; cases h
      · intro ⟨hs, _⟩
        exact absurd ((statusConfirmed_iff s).mpr hs) (by simp [hb])

/-- Counterexample to C2: an accepted bundle whose single signature
status is non-null and `Finalized` does not confirm — the call errors —
although the claim requires success for `Finalized`. -/
theorem broadcastBundleWithConfirmation_finalized_counterexample :
    (BroadcastBundleWithConfirmation []
        none
        { authDone := fun _ => false, authErrMsg := "auth ctx done"
          callerDone := false, callerErrMsg := "context canceled"
          recv := fun _ => Except.ok .accepted
          pollRaw := fun _ => Except.ok [some .finalized] }).outcome =
      Except.error "searcher service did not provide bundle status in time" ∧
    (BroadcastBundleWithConfirmation []
        none
        { authDone := fun _ => false, authErrMsg := "auth ctx done"
          callerDone := false, callerErrMsg := "context canceled"
          recv := fun _ => Except.ok .accepted
          pollRaw := fun _ => Except.ok [some .finalized] }).outcome ≠
      Except.ok () :=
  ⟨rfl, fun h => Except.noConfusion
    (show Except.error "searcher service did not provide bundle status in time" =
      Except.ok () from h)⟩

/-- Amended C2: for an accepted bundle whose first poll reports every
signature status as non-null, the call succeeds exactly when every status
is `Processed` or `Confirmed`; any other status — `Finalized` included —
yields an error. -/
theorem broadcastBundleWithConfirmation_confirm_statuses (txs : List Transaction)
    (env : BroadcastEnv) (statuses : List (Option ConfirmationStatus))
    (hassemble : ∃ ps, assemblePackets txs = Except.ok ps)
    (hauth : env.authDone 0 = false)
    (hrecv : env.recv 0 = Except.ok .accepted)
    (hcaller : env.callerDone = false)
    (hpoll : env.pollRaw 0 = Except.ok statuses)
    (hnonnull : statuses.all Option.isSome = true) :
    (BroadcastBundleWithConfirmation txs none env).outcome = Except.ok () ↔
      ∀ s ∈ statuses, s = some .processed ∨ s = some .confirmed := by
  obtain ⟨ps, hps⟩ := hassemble
  have hpoll0 : env.poll 0 = Except.ok statuses := by
    simp [BroadcastEnv.poll, hcaller, hpoll]
  have hloop : pollStatusesLoop env.poll 17 0 0 = (.ok statuses, 1) := by
    simp [pollStatusesLoop, hpoll0, hnonnull]
  have hres : BroadcastBundleWithConfirmation txs none env =
      { outcome := finalStatusCheck statuses, recvCalls := 1, pollCalls := 1 } := by
    simp [BroadcastBundleWithConfirmation, hps, broadcastLoop, hauth, hrecv,
      handleBundleResult, hloop]
  rw [hres]
  exact finalStatusCheck_ok_iff statuses

/-- Witness for amended C2 at a concrete environment with statuses
`[Confirmed, Processed]`. -/
theorem broadcastBundleWithConfirmation_confirm_statuses_witness :
    ((BroadcastBundleWithConfirmation []
        none
        { authDone := fun _ => false, authErrMsg := "auth ctx done"
          callerDone := false, callerErrMsg := "context canceled"
          recv := fun _ => Except.ok .accepted
          pollRaw := fun _ => Except.ok [some .confirmed, some .processed]
        }).outcome = Except.ok () ↔
      ∀ s ∈ [some ConfirmationStatus.confirmed, some ConfirmationStatus.processed],
        s = some ConfirmationStatus.processed ∨
          s = some ConfirmationStatus.confirmed) :=
  broadcastBundleWithConfirmation_confirm_statuses []
    { authDone := fun _ => false, authErrMsg := "auth ctx done"
      callerDone := false, callerErrMsg := "context canceled"
      recv := fun _ => Except.ok .accepted
      pollRaw := fun _ => Except.ok [some .confirmed, some .processed] }
    [some .confirmed, some .processed]
    ⟨[], rfl⟩ rfl rfl rfl rfl rfl

/-- Counterexample to C7: with the caller's context cancelled from the
start but the session's auth context live, the retry loop never consults
the caller's context: all five receives fail and the call returns the
max-retries error, not the caller's cancellation cause. -/
theorem broadcastBundleWithConfirmation_caller_ctx_counterexample :
    (BroadcastBundleWithConfirmation []
        none
        { authDone := fun _ => false, authErrMsg := "auth ctx done"
          callerDone := true, callerErrMsg := "context canceled"
          recv := fun _ => Except.error "EOF"
          pollRaw := fun _ => Except.ok [] }).outcome =
      Except.error "error waiting for max retries exceeded" ∧
    (BroadcastBundleWithConfirmation []
        none
        { authDone := fun _ => false, authErrMsg := "auth ctx done"
          callerDone := true, callerErrMsg := "context canceled"
          recv := fun _ => Except.error "EOF"
          pollRaw := fun _ => Except.ok [] }).outcome ≠
      Except.error "context canceled" :=
  ⟨rfl, fun h => absurd (Except.error.inj
    (show Except.error "error waiting for max retries exceeded" =
      Except.error "context canceled" from h)) (by decide)⟩

/-- Amended C7: the context the retry loop watches is the session's
`Auth.GrpcCtx`: if it is observed done before a bundle result is
classified, the call returns that context's error and no partial result
(no polls were made); the caller's own context reaches the call only
through `GetSignatureStatuses` after classification. -/
theorem broadcastBundleWithConfirmation_auth_ctx_cancelled
    (txs : List Transaction) (env : BroadcastEnv) (i : Nat) (hi : i < 5)
    (hassemble : ∃ ps, assemblePackets txs = Except.ok ps)
    (hprev : ∀ j : Nat, j < i → env.authDone j = false ∧
      ∃ e, env.recv j = Except.error e)
    (hauth : env.authDone i = true) :
    (BroadcastBundleWithConfirmation txs none env).outcome =
        Except.error env.authErrMsg ∧
      (BroadcastBundleWithConfirmation txs none env).pollCalls = 0 := by
  obtain ⟨ps, hps⟩ := hassemble
  obtain ⟨m, hm⟩ : ∃ m, 5 - i = m + 1 := ⟨5 - i - 1, by omega⟩
  have hres : BroadcastBundleWithConfirmation txs none env =
      { outcome := Except.error env.authErrMsg
        recvCalls := i, pollCalls := 0 } := by
    have hskip := broadcastLoop_skip env i 5 0 0 0 (by omega)
      (fun j hj => by simpa using hprev j hj)
    have hstep : broadcastLoop env (m + 1) i i 0 =
        { outcome := Except.error env.authErrMsg
          recvCalls := i, pollCalls := 0 } := by
      simp [broadcastLoop, hauth]
    calc BroadcastBundleWithConfirmation txs none env
        = broadcastLoop env 5 0 0 0 := by
          simp [BroadcastBundleWithConfirmation, hps]
      _ = broadcastLoop env (5 - i) (0 + i) (0 + i) 0 := hskip
      _ = broadcastLoop env (m + 1) i i 0 := by rw [hm, Nat.zero_add]
      _ = _ := hstep
  rw [hres]
  exact ⟨rfl, rfl⟩

/-- Witness for amended C7 at a concrete environment whose auth context
is done at the first iteration. -/
theorem broadcastBundleWithConfirmation_auth_ctx_cancelled_witness :
    (BroadcastBundleWithConfirmation []
        none
        { authDone := fun _ => true, authErrMsg := "context canceled"
          callerDone := false, callerErrMsg := "context canceled"
          recv := fun _ => Except.error "EOF"
          pollRaw := fun _ => Except.ok [] }).outcome =
      Except.error (BroadcastEnv.authErrMsg
        { authDone := fun _ => true, authErrMsg := "context canceled"
          callerDone := false, callerErrMsg := "context canceled"
          recv := fun _ => Except.error "EOF"
          pollRaw := fun _ => Except.ok [] }) ∧
    (BroadcastBundleWithConfirmation []
        none
        { authDone := fun _ => true, authErrMsg := "context canceled"
          callerDone := false, callerErrMsg := "context canceled"
          recv := fun _ => Except.error "EOF"
          pollRaw := fun _ => Except.ok [] }).pollCalls = 0 :=
  broadcastBundleWithConfirmation_auth_ctx_cancelled []
    { authDone := fun _ => true, authErrMsg := "context canceled"
      callerDone := false, callerErrMsg := "context canceled"
      recv := fun _ => Except.error "EOF"
      pollRaw := fun _ => Except.ok [] }
    0 (by omega) ⟨[], rfl⟩ (fun _ hj => absurd hj (by omega)) rfl

end JitoGo
